import Mathlib

/-!
Verification of the GraphQL AST data model of ast.go (package graphql_parser).

The Go structs are embedded as Lean structures; the empty-marker-interface
categories (Selection, Value, Type, TypeDefinition, TypeExtension) are embedded
as closed inductive sums whose constructors are exactly the concrete Go types
that implement the corresponding marker method in ast.go.

Conventions of the embedding:
 - Go slices become List, Go pointers to optional data become Option.
 - Go int fields become Int; Go string fields become String; Go bool become Bool.
 - The Go field named Type is embedded as the field Ty, because Type is a
   reserved word in Lean; every other field keeps its source name.
 - The doubly linked token chain (Token.Prev / Token.Next in ast.go) is
   embedded as a List Token in source order, with the prev/next links given by
   adjacent list positions (the arena-with-index representation of spec section 9);
   nextTok and prevTok below realise the two pointer fields.
 - The lexer.Type token-kind enumeration comes from an external package that is
   not part of this repository; it is modelled from the spec (section 6).
-/

namespace GqlAst

/-- Modelled from the spec: the external lexer.Type token-kind enumeration,
listed in spec section 6 as punctuation, name, int, float, string, block-string,
comment, SOF, EOF. The lexer package is not part of this repository. -/
inductive TokenType where
  | sof
  | eof
  | punctuation
  | name
  | int
  | float
  | string
  | blockString
  | comment
deriving DecidableEq, Repr

/-- Embeds the Go struct Token (ast.go lines 34-58). The Prev and Next pointer
fields are represented by list adjacency in a token chain, see nextTok and
prevTok below. -/
structure Token where
  Kind : TokenType
  Start : Int
  End : Int
  Line : Int
  Column : Int
  Value : String
deriving DecidableEq, Repr

mutual

/-- Embeds the Go struct Source (ast.go lines 7-11); the pointer field
LocationOffset of type *Location becomes Option Location. Source and Location
are mutually recursive in the Go source, hence the mutual block. -/
inductive Source where
  | mk (Body : String) (Name : String) (LocationOffset : Option Location)

/-- Embeds the Go struct Location (ast.go lines 15-30). -/
inductive Location where
  | mk (Start : Int) (End : Int) (StartToken : Token) (EndToken : Token)
       (Source : Source)

end

def Source.Body : Source → String
  | .mk b _ _ => b

def Source.Name : Source → String
  | .mk _ n _ => n

def Source.LocationOffset : Source → Option Location
  | .mk _ _ o => o

def Location.Start : Location → Int
  | .mk s _ _ _ _ => s

def Location.End : Location → Int
  | .mk _ e _ _ _ => e

def Location.StartToken : Location → Token
  | .mk _ _ t _ _ => t

def Location.EndToken : Location → Token
  | .mk _ _ _ t _ => t

def Location.Source : Location → Source
  | .mk _ _ _ _ s => s

/-- Embeds the Go struct Name (ast.go lines 62-65). -/
structure Name where
  Loc : Location
  Value : String

/-- Embeds the Go struct Variable (ast.go lines 100-103). -/
structure Variable where
  Loc : Location
  Name : Name

/-- Embeds the Go struct IntValue (ast.go lines 175-178). -/
structure IntValue where
  Loc : Location
  Value : String

/-- Embeds the Go struct FloatValue (ast.go lines 180-183). -/
structure FloatValue where
  Loc : Location
  Value : String

/-- Embeds the Go struct StringValue (ast.go lines 185-189). -/
structure StringValue where
  Loc : Location
  Value : String
  Block : Bool

/-- Embeds the Go struct BooleanValue (ast.go lines 191-194). -/
structure BooleanValue where
  Loc : Location
  Value : Bool

/-- Embeds the Go struct NullValue (ast.go lines 196-198). -/
structure NullValue where
  Loc : Location

/-- Embeds the Go struct EnumValue (ast.go lines 200-203). -/
structure EnumValue where
  Loc : Location
  Value : String

mutual

/-- Embeds the Go marker interface Value (ast.go lines 161-173): its members are
exactly the nine types with an isValue method, namely Variable, IntValue,
FloatValue, StringValue, BooleanValue, NullValue, EnumValue, ListValue and
ObjectValue. -/
inductive Value where
  | variableValue (v : Variable)
  | intValue (v : IntValue)
  | floatValue (v : FloatValue)
  | stringValue (v : StringValue)
  | booleanValue (v : BooleanValue)
  | nullValue (v : NullValue)
  | enumValue (v : EnumValue)
  | listValue (v : ListValue)
  | objectValue (v : ObjectValue)

/-- Embeds the Go struct ListValue (ast.go lines 205-208). -/
inductive ListValue where
  | mk (Loc : Location) (Values : List Value)

/-- Embeds the Go struct ObjectValue (ast.go lines 210-213). -/
inductive ObjectValue where
  | mk (Loc : Location) (Fields : List ObjectField)

/-- Embeds the Go struct ObjectField (ast.go lines 215-219). -/
inductive ObjectField where
  | mk (Loc : Location) (Name : Name) (Value : Value)

end

def ListValue.Loc : ListValue → Location
  | .mk l _ => l

def ListValue.Values : ListValue → List Value
  | .mk _ vs => vs

def ObjectValue.Loc : ObjectValue → Location
  | .mk l _ => l

def ObjectValue.Fields : ObjectValue → List ObjectField
  | .mk _ fs => fs

def ObjectField.Loc : ObjectField → Location
  | .mk l _ _ => l

def ObjectField.Name : ObjectField → Name
  | .mk _ n _ => n

def ObjectField.Value : ObjectField → Value
  | .mk _ _ v => v

/-- Embeds the Go struct Argument (ast.go lines 127-131). -/
structure Argument where
  Loc : Location
  Name : Name
  Value : Value

/-- Embeds the Go struct Directive (ast.go lines 223-227). -/
structure Directive where
  Loc : Location
  Name : Name
  Arguments : List Argument

/-- Embeds the Go struct NamedType (ast.go lines 239-242). -/
structure NamedType where
  Loc : Location
  Name : Name

mutual

/-- Embeds the Go marker interface Type (ast.go lines 231-237), renamed TypeRef
because Type is reserved in Lean: its members are exactly the three types with
an isType method, namely NamedType, ListType and NonNullType. -/
inductive TypeRef where
  | namedType (t : NamedType)
  | listType (t : ListType)
  | nonNullType (t : NonNullType)

/-- Embeds the Go struct ListType (ast.go lines 244-247); the field Ty embeds
the Go field Type. -/
inductive ListType where
  | mk (Loc : Location) (Ty : TypeRef)

/-- Embeds the Go struct NonNullType (ast.go lines 249-252); the field Ty
embeds the Go field Type. -/
inductive NonNullType where
  | mk (Loc : Location) (Ty : TypeRef)

end

def ListType.Loc : ListType → Location
  | .mk l _ => l

def ListType.Ty : ListType → TypeRef
  | .mk _ t => t

def NonNullType.Loc : NonNullType → Location
  | .mk l _ => l

def NonNullType.Ty : NonNullType → TypeRef
  | .mk _ t => t

/-- Embeds the Go struct VariableDefinition (ast.go lines 93-98); the field Ty
embeds the Go field Type, and DefaultValue, a Go interface value that may be
nil when no default is present, becomes Option Value with none for nil. -/
structure VariableDefinition where
  Loc : Location
  Variable : Variable
  Ty : TypeRef
  DefaultValue : Option Value

/-- Embeds the Go struct FragmentSpread (ast.go lines 135-139). -/
structure FragmentSpread where
  Loc : Location
  Name : Name
  Directives : List Directive

mutual

/-- Embeds the Go marker interface Selection (ast.go lines 110-116): its
members are exactly the three types with an isSelection method, namely Field,
FragmentSpread and InlineFragment. -/
inductive Selection where
  | field (s : Field)
  | fragmentSpread (s : FragmentSpread)
  | inlineFragment (s : InlineFragment)

/-- Embeds the Go struct SelectionSet (ast.go lines 105-108). -/
inductive SelectionSet where
  | mk (Loc : Location) (Selections : List Selection)

/-- Embeds the Go struct Field (ast.go lines 118-125). -/
inductive Field where
  | mk (Loc : Location) (Alias : Name) (Name : Name) (Arguments : List Argument)
       (Directives : List Directive) (SelectionSet : SelectionSet)

/-- Embeds the Go struct InlineFragment (ast.go lines 141-146). Note the field
SelectionSet has the slice type List SelectionSet, exactly as in the source. -/
inductive InlineFragment where
  | mk (Loc : Location) (TypeCondition : NamedType) (Directives : List Directive)
       (SelectionSet : List SelectionSet)

end

def SelectionSet.Loc : SelectionSet → Location
  | .mk l _ => l

def SelectionSet.Selections : SelectionSet → List Selection
  | .mk _ s => s

def Field.Loc : Field → Location
  | .mk l _ _ _ _ _ => l

def Field.Alias : Field → Name
  | .mk _ a _ _ _ _ => a

def Field.Name : Field → Name
  | .mk _ _ n _ _ _ => n

def Field.Arguments : Field → List Argument
  | .mk _ _ _ a _ _ => a

def Field.Directives : Field → List Directive
  | .mk _ _ _ _ d _ => d

def Field.SelectionSet : Field → SelectionSet
  | .mk _ _ _ _ _ s => s

def InlineFragment.Loc : InlineFragment → Location
  | .mk l _ _ _ => l

def InlineFragment.TypeCondition : InlineFragment → NamedType
  | .mk _ t _ _ => t

def InlineFragment.Directives : InlineFragment → List Directive
  | .mk _ _ d _ => d

def InlineFragment.SelectionSet : InlineFragment → List SelectionSet
  | .mk _ _ _ s => s

/-- Embeds the Go struct FragmentDefinition (ast.go lines 148-157). Note the
field VariableDefinition (singular name, slice type) and the field SelectionSet
of slice type List SelectionSet, exactly as in the source. -/
structure FragmentDefinition where
  Loc : Location
  Name : Name
  VariableDefinition : List VariableDefinition
  TypeCondition : NamedType
  Directives : List Directive
  SelectionSet : List SelectionSet

/-- Embeds the Go struct OperationDefinition (ast.go lines 84-91). -/
structure OperationDefinition where
  Loc : Location
  Operation : String
  Name : Name
  VariableDefinitions : List VariableDefinition
  Directives : List Directive
  SelectionSet : SelectionSet

/-- Embeds the Go struct ExecutableDocument (ast.go lines 69-73). -/
structure ExecutableDocument where
  Loc : Location
  Operations : List OperationDefinition
  Fragments : List FragmentDefinition

/-- Embeds the Go struct OperationTypeDefinition (ast.go lines 275-279); the
field Ty embeds the Go field Type. -/
structure OperationTypeDefinition where
  Loc : Location
  Operation : String
  Ty : NamedType

/-- Embeds the Go struct SchemaDefinition (ast.go lines 269-273). -/
structure SchemaDefinition where
  Loc : Location
  Directives : List Directive
  OperationTypes : List OperationTypeDefinition

/-- Embeds the Go struct ScalarTypeDefinition (ast.go lines 283-288). -/
structure ScalarTypeDefinition where
  Loc : Location
  Description : StringValue
  Name : Name
  Directives : List Directive

/-- Embeds the Go struct InputValueDefinition (ast.go lines 308-315); the field
Ty embeds the Go field Type, and DefaultValue becomes Option Value with none
for a nil Go interface value. -/
structure InputValueDefinition where
  Loc : Location
  Description : StringValue
  Name : Name
  Ty : TypeRef
  DefaultValue : Option Value
  Directives : List Directive

/-- Embeds the Go struct FieldDefinition (ast.go lines 299-306); the field Ty
embeds the Go field Type. -/
structure FieldDefinition where
  Loc : Location
  Description : StringValue
  Name : Name
  Arguments : List InputValueDefinition
  Ty : TypeRef
  Directives : List Directive

/-- Embeds the Go struct ObjectTypeDefinition (ast.go lines 290-297). -/
structure ObjectTypeDefinition where
  Loc : Location
  Description : StringValue
  Name : Name
  Interfaces : List NamedType
  Directives : List Directive
  Fields : List FieldDefinition

/-- Embeds the Go struct InterfaceTypeDefinition (ast.go lines 317-323). -/
structure InterfaceTypeDefinition where
  Loc : Location
  Description : StringValue
  Name : Name
  Directives : List Directive
  Fields : List FieldDefinition

/-- Embeds the Go struct UnionTypeDefinition (ast.go lines 325-331). -/
structure UnionTypeDefinition where
  Loc : Location
  Description : StringValue
  Name : Name
  Directives : List Directive
  Types : List NamedType

/-- Embeds the Go struct EnumValueDefinition (ast.go lines 341-346). -/
structure EnumValueDefinition where
  Loc : Location
  Description : StringValue
  Name : Name
  Directives : List Directive

/-- Embeds the Go struct EnumTypeDefinition (ast.go lines 333-339). -/
structure EnumTypeDefinition where
  Loc : Location
  Description : StringValue
  Name : Name
  Directives : List Directive
  Values : List EnumValueDefinition

/-- Embeds the Go struct InputObjectTypeDefinition (ast.go lines 348-354). -/
structure InputObjectTypeDefinition where
  Loc : Location
  Description : StringValue
  Name : Name
  Directives : List Directive
  Fields : List InputValueDefinition

/-- Embeds the Go struct DirectiveDefinition (ast.go lines 358-364). Note the
fields Arguments and Locations are single values, not slices, exactly as in
the source. -/
structure DirectiveDefinition where
  Loc : Location
  Description : StringValue
  Name : Name
  Arguments : InputValueDefinition
  Locations : GqlAst.Name

/-- Embeds the Go marker interface TypeDefinition (ast.go lines 256-267): its
members are exactly the eight types with an isTypeDefinition method. -/
inductive TypeDefinition where
  | schemaDefinition (d : SchemaDefinition)
  | directiveDefinition (d : DirectiveDefinition)
  | scalarTypeDefinition (d : ScalarTypeDefinition)
  | objectTypeDefinition (d : ObjectTypeDefinition)
  | interfaceTypeDefinition (d : InterfaceTypeDefinition)
  | unionTypeDefinition (d : UnionTypeDefinition)
  | enumTypeDefinition (d : EnumTypeDefinition)
  | inputObjectTypeDefinition (d : InputObjectTypeDefinition)

/-- Embeds the Go struct SchemaExtension (ast.go lines 368-372). -/
structure SchemaExtension where
  Loc : Location
  Directives : List Directive
  OperationTypes : List OperationTypeDefinition

/-- Embeds the Go struct ScalarTypeExtension (ast.go lines 387-391). -/
structure ScalarTypeExtension where
  Loc : Location
  Name : Name
  Directives : List Directive

/-- Embeds the Go struct ObjectTypeExtension (ast.go lines 393-399). Note the
fields Interfaces and Fields are single values, not slices, exactly as in the
source. -/
structure ObjectTypeExtension where
  Loc : Location
  Name : Name
  Interfaces : NamedType
  Directives : List Directive
  Fields : FieldDefinition

/-- Embeds the Go struct InterfaceTypeExtension (ast.go lines 401-406). -/
structure InterfaceTypeExtension where
  Loc : Location
  Name : Name
  Directives : List Directive
  Fields : List FieldDefinition

/-- Embeds the Go struct UnionTypeExtension (ast.go lines 408-413). Note the
field Types is a single value, not a slice, exactly as in the source. -/
structure UnionTypeExtension where
  Loc : Location
  Name : Name
  Directives : List Directive
  Types : NamedType

/-- Embeds the Go struct EnumTypeExtension (ast.go lines 415-420). Note the
field Values is a single value, not a slice, exactly as in the source. -/
structure EnumTypeExtension where
  Loc : Location
  Name : Name
  Directives : List Directive
  Values : EnumValueDefinition

/-- Embeds the Go struct InputObjectTypeExtension (ast.go lines 422-427). Note
the field Fields is a single value, not a slice, exactly as in the source. -/
structure InputObjectTypeExtension where
  Loc : Location
  Name : Name
  Directives : List Directive
  Fields : InputValueDefinition

/-- Embeds the Go marker interface TypeExtension (ast.go lines 374-383): its
members are exactly the six types with an isTypeExtension method. -/
inductive TypeExtension where
  | scalarTypeExtension (e : ScalarTypeExtension)
  | objectTypeExtension (e : ObjectTypeExtension)
  | interfaceTypeExtension (e : InterfaceTypeExtension)
  | unionTypeExtension (e : UnionTypeExtension)
  | enumTypeExtension (e : EnumTypeExtension)
  | inputObjectTypeExtension (e : InputObjectTypeExtension)

/-- Embeds the Go struct SchemaDocument (ast.go lines 75-82); the field
DirectiveDefinition keeps the singular field name used in the source. -/
structure SchemaDocument where
  Loc : Location
  SchemaDefinitions : List SchemaDefinition
  TypeDefinitions : List TypeDefinition
  DirectiveDefinition : List GqlAst.DirectiveDefinition
  SchemaExtensions : List SchemaExtension
  TypeExtensions : List TypeExtension

/-- Sum of all 44 AST node struct types of ast.go (every struct except Source
and Token, which are not AST nodes); used to state per-node properties such as
Location ownership uniformly over the whole node family. -/
inductive Node where
  | name (n : Name)
  | executableDocument (n : ExecutableDocument)
  | schemaDocument (n : SchemaDocument)
  | operationDefinition (n : OperationDefinition)
  | variableDefinition (n : VariableDefinition)
  | variableNode (n : Variable)
  | selectionSet (n : SelectionSet)
  | field (n : Field)
  | argument (n : Argument)
  | fragmentSpread (n : FragmentSpread)
  | inlineFragment (n : InlineFragment)
  | fragmentDefinition (n : FragmentDefinition)
  | intValue (n : IntValue)
  | floatValue (n : FloatValue)
  | stringValue (n : StringValue)
  | booleanValue (n : BooleanValue)
  | nullValue (n : NullValue)
  | enumValue (n : EnumValue)
  | listValue (n : ListValue)
  | objectValue (n : ObjectValue)
  | objectField (n : ObjectField)
  | directive (n : Directive)
  | namedType (n : NamedType)
  | listType (n : ListType)
  | nonNullType (n : NonNullType)
  | schemaDefinition (n : SchemaDefinition)
  | operationTypeDefinition (n : OperationTypeDefinition)
  | scalarTypeDefinition (n : ScalarTypeDefinition)
  | objectTypeDefinition (n : ObjectTypeDefinition)
  | fieldDefinition (n : FieldDefinition)
  | inputValueDefinition (n : InputValueDefinition)
  | interfaceTypeDefinition (n : InterfaceTypeDefinition)
  | unionTypeDefinition (n : UnionTypeDefinition)
  | enumTypeDefinition (n : EnumTypeDefinition)
  | enumValueDefinition (n : EnumValueDefinition)
  | inputObjectTypeDefinition (n : InputObjectTypeDefinition)
  | directiveDefinition (n : DirectiveDefinition)
  | schemaExtension (n : SchemaExtension)
  | scalarTypeExtension (n : ScalarTypeExtension)
  | objectTypeExtension (n : ObjectTypeExtension)
  | interfaceTypeExtension (n : InterfaceTypeExtension)
  | unionTypeExtension (n : UnionTypeExtension)
  | enumTypeExtension (n : EnumTypeExtension)
  | inputObjectTypeExtension (n : InputObjectTypeExtension)

/-- The Location-typed fields directly declared by each node struct in ast.go,
listed in declaration order: each node struct declares exactly the field Loc of
type Location, so every variant yields the singleton of its Loc field. -/
def Node.ownLocs : Node → List Location
  | .name n => [n.Loc]
  | .executableDocument n => [n.Loc]
  | .schemaDocument n => [n.Loc]
  | .operationDefinition n => [n.Loc]
  | .variableDefinition n => [n.Loc]
  | .variableNode n => [n.Loc]
  | .selectionSet n => [n.Loc]
  | .field n => [n.Loc]
  | .argument n => [n.Loc]
  | .fragmentSpread n => [n.Loc]
  | .inlineFragment n => [n.Loc]
  | .fragmentDefinition n => [n.Loc]
  | .intValue n => [n.Loc]
  | .floatValue n => [n.Loc]
  | .stringValue n => [n.Loc]
  | .booleanValue n => [n.Loc]
  | .nullValue n => [n.Loc]
  | .enumValue n => [n.Loc]
  | .listValue n => [n.Loc]
  | .objectValue n => [n.Loc]
  | .objectField n => [n.Loc]
  | .directive n => [n.Loc]
  | .namedType n => [n.Loc]
  | .listType n => [n.Loc]
  | .nonNullType n => [n.Loc]
  | .schemaDefinition n => [n.Loc]
  | .operationTypeDefinition n => [n.Loc]
  | .scalarTypeDefinition n => [n.Loc]
  | .objectTypeDefinition n => [n.Loc]
  | .fieldDefinition n => [n.Loc]
  | .inputValueDefinition n => [n.Loc]
  | .interfaceTypeDefinition n => [n.Loc]
  | .unionTypeDefinition n => [n.Loc]
  | .enumTypeDefinition n => [n.Loc]
  | .enumValueDefinition n => [n.Loc]
  | .inputObjectTypeDefinition n => [n.Loc]
  | .directiveDefinition n => [n.Loc]
  | .schemaExtension n => [n.Loc]
  | .scalarTypeExtension n => [n.Loc]
  | .objectTypeExtension n => [n.Loc]
  | .interfaceTypeExtension n => [n.Loc]
  | .unionTypeExtension n => [n.Loc]
  | .enumTypeExtension n => [n.Loc]
  | .inputObjectTypeExtension n => [n.Loc]

/-- Sum of the 15 struct types of ast.go whose names end in Definition. -/
inductive DefinitionNode where
  | operationDefinition (d : OperationDefinition)
  | variableDefinition (d : VariableDefinition)
  | fragmentDefinition (d : FragmentDefinition)
  | schemaDefinition (d : SchemaDefinition)
  | operationTypeDefinition (d : OperationTypeDefinition)
  | scalarTypeDefinition (d : ScalarTypeDefinition)
  | objectTypeDefinition (d : ObjectTypeDefinition)
  | fieldDefinition (d : FieldDefinition)
  | inputValueDefinition (d : InputValueDefinition)
  | interfaceTypeDefinition (d : InterfaceTypeDefinition)
  | unionTypeDefinition (d : UnionTypeDefinition)
  | enumTypeDefinition (d : EnumTypeDefinition)
  | enumValueDefinition (d : EnumValueDefinition)
  | inputObjectTypeDefinition (d : InputObjectTypeDefinition)
  | directiveDefinition (d : DirectiveDefinition)

/-- The StringValue-typed description fields directly declared by each
Definition struct in ast.go: ten of the fifteen structs declare a field
Description of type StringValue, the other five (OperationDefinition,
VariableDefinition, FragmentDefinition, SchemaDefinition and
OperationTypeDefinition) declare none. -/
def DefinitionNode.ownDescriptions : DefinitionNode → List StringValue
  | .operationDefinition _ => []
  | .variableDefinition _ => []
  | .fragmentDefinition _ => []
  | .schemaDefinition _ => []
  | .operationTypeDefinition _ => []
  | .scalarTypeDefinition d => [d.Description]
  | .objectTypeDefinition d => [d.Description]
  | .fieldDefinition d => [d.Description]
  | .inputValueDefinition d => [d.Description]
  | .interfaceTypeDefinition d => [d.Description]
  | .unionTypeDefinition d => [d.Description]
  | .enumTypeDefinition d => [d.Description]
  | .enumValueDefinition d => [d.Description]
  | .inputObjectTypeDefinition d => [d.Description]
  | .directiveDefinition d => [d.Description]

/-- Modelled from the spec (sections 3 and 4.1): the head of a well-formed
token chain is the zero-length SOF sentinel at offset 0. The tokenizer that
builds the chain is an external collaborator not present in src. -/
def headSOF : List Token → Prop
  | [] => False
  | t :: _ => t.Kind = TokenType.sof ∧ t.Start = 0 ∧ t.End = 0

/-- Modelled from the spec (sections 3 and 4.1): the last element of a
well-formed token chain is the zero-length EOF sentinel at offset len(body). -/
def lastEOF (body : String) : List Token → Prop
  | [] => False
  | [t] => t.Kind = TokenType.eof ∧ t.Start = (body.length : Int) ∧
           t.End = (body.length : Int)
  | _ :: t :: rest => lastEOF body (t :: rest)

/-- Modelled from the spec (section 4.1): token spans tile the body with no
gaps and no overlaps, so each token ends exactly where its successor starts. -/
def adjJoined : List Token → Prop
  | [] => True
  | [_] => True
  | t :: u :: rest => t.End = u.Start ∧ adjJoined (u :: rest)

/-- Modelled from the spec (section 3): each token span is ordered, with its
start offset not after its end offset. -/
def spansOrdered : List Token → Prop
  | [] => True
  | t :: rest => t.Start ≤ t.End ∧ spansOrdered rest

/-- Modelled from the spec (sections 3 and 4.1): well-formedness of the token
chain over one source body, in the list-with-index representation of the
doubly linked Prev/Next pointers of the Go Token struct (spec section 9). -/
def chainWF (body : String) (ts : List Token) : Prop :=
  headSOF ts ∧ lastEOF body ts ∧ adjJoined ts ∧ spansOrdered ts

/-- The Next pointer of the token at position i of a chain, in the
list-with-index representation: the token at position i + 1, if any. -/
def nextTok (ts : List Token) (i : Nat) : Option Token :=
  ts.get? (i + 1)

/-- The Prev pointer of the token at position i of a chain, in the
list-with-index representation: the token at position i - 1, if any. -/
def prevTok (ts : List Token) (i : Nat) : Option Token :=
  match i with
  | 0 => none
  | j + 1 => ts.get? j

/-- Modelled from the spec (section 4.2): the Location constructor
locationFor(startToken, endToken, source), computing the byte-offset start
from startToken.start and end from endToken.end. No constructor is present
in src; only the Location struct shape is. -/
def locationFor (startToken endToken : Token) (source : Source) : Location :=
  Location.mk startToken.Start endToken.End startToken endToken source

/-- Modelled from the spec (section 4.4): field alias resolution. If the alias
value is the empty string the result key is the field name value, otherwise it
is the alias value. No such function is present in src; only the Field struct
shape is. -/
def Field.resultKey (f : Field) : String :=
  if f.Alias.Value = "" then f.Name.Value else f.Alias.Value

/-! Concrete sample values used by counterexamples and witnesses. The sample
chain tokenizes the two-byte body "ab" into the SOF sentinel, one name token
spanning the whole body, and the EOF sentinel. -/

def exSource : Source := Source.mk "ab" "doc" none

def exTokSOF : Token := ⟨TokenType.sof, 0, 0, 1, 1, ""⟩

def exTokName : Token := ⟨TokenType.name, 0, 2, 1, 1, "ab"⟩

def exTokEOF : Token := ⟨TokenType.eof, 2, 2, 1, 3, ""⟩

def exChain : List Token := [exTokSOF, exTokName, exTokEOF]

def exLoc : Location := Location.mk 0 2 exTokSOF exTokEOF exSource

def exName : Name := ⟨exLoc, "n"⟩

def exNamedType : NamedType := ⟨exLoc, exName⟩

def exStringValue : StringValue := ⟨exLoc, "", false⟩

def exSelSet : SelectionSet := SelectionSet.mk exLoc []

def exSchemaDef : SchemaDefinition := ⟨exLoc, [], []⟩

def exInputValueDef : InputValueDefinition :=
  ⟨exLoc, exStringValue, exName, TypeRef.namedType exNamedType, none, []⟩

def exDirectiveDef : DirectiveDefinition :=
  ⟨exLoc, exStringValue, exName, exInputValueDef, exName⟩

def exFieldNoAlias : Field :=
  Field.mk exLoc ⟨exLoc, ""⟩ exName [] [] exSelSet

def exFieldAlias : Field :=
  Field.mk exLoc ⟨exLoc, "foo"⟩ exName [] [] exSelSet

def exVariableDef : VariableDefinition :=
  ⟨exLoc, ⟨exLoc, exName⟩, TypeRef.namedType exNamedType, none⟩

def exNullValue : NullValue := ⟨exLoc⟩

/-! Helper lemmas about well-formed token chains. -/

theorem headSOF_head : ∀ {ts : List Token}, headSOF ts →
    ∀ t, ts.head? = some t →
    t.Kind = TokenType.sof ∧ t.Start = 0 ∧ t.End = 0
  | [], h, _, _ => h.elim
  | a :: rest, h, t, ht => by
      simp only [List.head?_cons] at ht
      injection ht with ht
      subst ht
      exact h

theorem lastEOF_getLast : ∀ (ts : List Token) {body : String}, lastEOF body ts →
    ∀ t, ts.getLast? = some t →
    t.Kind = TokenType.eof ∧ t.Start = (body.length : Int) ∧
      t.End = (body.length : Int)
  | [], _, h, _, _ => h.elim
  | [a], _, h, t, ht => by
      simp only [List.getLast?_singleton] at ht
      injection ht with ht
      subst ht
      exact h
  | _ :: b :: rest, _, h, t, ht => by
      rw [List.getLast?_cons_cons] at ht
      exact lastEOF_getLast (b :: rest) h t ht

theorem adjJoined_get : ∀ (ts : List Token), adjJoined ts →
    ∀ (i : Nat) (t u : Token), ts.get? i = some t → ts.get? (i + 1) = some u →
    t.End = u.Start
  | [], _, i, t, u, ht, _ => by simp at ht
  | [a], _, i, t, u, _, hu => by
      cases i with
      | zero => simp at hu
      | succ j => simp at hu
  | a :: b :: rest, h, i, t, u, ht, hu => by
      cases i with
      | zero =>
          rw [List.get?_cons_zero] at ht
          rw [List.get?_cons_succ, List.get?_cons_zero] at hu
          injection ht with ht
          injection hu with hu
          subst ht
          subst hu
          exact h.1
      | succ j =>
          rw [List.get?_cons_succ] at ht hu
          exact adjJoined_get (b :: rest) h.2 j t u ht hu

theorem spansOrdered_get : ∀ (ts : List Token), spansOrdered ts →
    ∀ (i : Nat) (t : Token), ts.get? i = some t → t.Start ≤ t.End
  | [], _, i, t, ht => by simp at ht
  | a :: rest, h, i, t, ht => by
      cases i with
      | zero =>
          rw [List.get?_cons_zero] at ht
          injection ht with ht
          subst ht
          exact h.1
      | succ j =>
          rw [List.get?_cons_succ] at ht
          exact spansOrdered_get rest h.2 j t ht

theorem chain_end_le_start {ts : List Token} (h3 : adjJoined ts)
    (h4 : spansOrdered ts) :
    ∀ (k i : Nat) (t u : Token), ts.get? i = some t →
      ts.get? (i + k + 1) = some u → t.End ≤ u.Start := by
  intro k
  induction k with
  | zero =>
      intro i t u ht hu
      exact le_of_eq (adjJoined_get ts h3 i t u ht hu)
  | succ m ih =>
      intro i t u ht hu
      have hlen : i + m + 1 < ts.length := by
        obtain ⟨hb, -⟩ := List.get?_eq_some.mp hu
        omega
      have hw : ts.get? (i + m + 1) = some (ts.get ⟨i + m + 1, hlen⟩) :=
        List.get?_eq_get hlen
      have e1 : t.End ≤ (ts.get ⟨i + m + 1, hlen⟩).Start := ih i t _ ht hw
      have e2 : (ts.get ⟨i + m + 1, hlen⟩).Start ≤
          (ts.get ⟨i + m + 1, hlen⟩).End := spansOrdered_get ts h4 _ _ hw
      have e3 : (ts.get ⟨i + m + 1, hlen⟩).End = u.Start :=
        adjJoined_get ts h3 (i + m + 1) _ u hw hu
      omega

theorem chain_lt_le {ts : List Token} (h3 : adjJoined ts) (h4 : spansOrdered ts)
    (i j : Nat) (t u : Token) (hij : i < j) (ht : ts.get? i = some t)
    (hu : ts.get? j = some u) : t.End ≤ u.Start := by
  have hj' : i + (j - i - 1) + 1 = j := by omega
  exact chain_end_le_start h3 h4 (j - i - 1) i t u ht (by rw [hj']; exact hu)

theorem chain_start_le_end {ts : List Token} (h3 : adjJoined ts)
    (h4 : spansOrdered ts) {i j : Nat} {t u : Token} (hij : i ≤ j)
    (ht : ts.get? i = some t) (hu : ts.get? j = some u) : t.Start ≤ u.End := by
  rcases Nat.lt_or_ge i j with hlt | hge
  · have e1 := spansOrdered_get ts h4 i t ht
    have e2 := chain_lt_le h3 h4 i j t u hlt ht hu
    have e3 := spansOrdered_get ts h4 j u hu
    omega
  · have hij' : i = j := le_antisymm hij hge
    subst hij'
    rw [ht] at hu
    injection hu with hu
    subst hu
    exact spansOrdered_get ts h4 i t ht

theorem chain_start_nonneg {ts : List Token} (h1 : headSOF ts)
    (h3 : adjJoined ts) (h4 : spansOrdered ts) {i : Nat} {t : Token}
    (ht : ts.get? i = some t) : 0 ≤ t.Start := by
  cases ts with
  | nil => simp at ht
  | cons a rest =>
      have h0 : (a :: rest).get? 0 = some a := rfl
      rcases Nat.eq_zero_or_pos i with hi0 | hipos
      · subst hi0
        rw [h0] at ht
        injection ht with ht
        subst ht
        exact le_of_eq h1.2.1.symm
      · have hle : a.End ≤ t.Start := chain_lt_le h3 h4 0 i a t hipos h0 ht
        have hend : a.End = 0 := h1.2.2
        omega

theorem chain_end_le {body : String} {ts : List Token} (h2 : lastEOF body ts)
    (h3 : adjJoined ts) (h4 : spansOrdered ts) {j : Nat} {t : Token}
    (hj : ts.get? j = some t) : t.End ≤ (body.length : Int) := by
  obtain ⟨hlen, -⟩ := List.get?_eq_some.mp hj
  have hne : ts.length - 1 < ts.length := by omega
  have hlastsome : ts.get? (ts.length - 1) =
      some (ts.get ⟨ts.length - 1, hne⟩) := List.get?_eq_get hne
  have hl := lastEOF_getLast ts h2 (ts.get ⟨ts.length - 1, hne⟩)
    (by rw [List.getLast?_eq_getElem?, ← List.get?_eq_getElem?]; exact hlastsome)
  rcases Nat.lt_or_ge j (ts.length - 1) with hlt | hge
  · have hlelast := chain_lt_le h3 h4 j (ts.length - 1) t _ hlt hj hlastsome
    have hs : (ts.get ⟨ts.length - 1, hne⟩).Start = (body.length : Int) :=
      hl.2.1
    omega
  · have hj' : j = ts.length - 1 := by omega
    subst hj'
    rw [hj] at hlastsome
    injection hlastsome with he
    rw [← he] at hl
    exact le_of_eq hl.2.2

theorem exChainWF : chainWF "ab" exChain :=
  ⟨⟨rfl, rfl, rfl⟩, ⟨rfl, rfl, rfl⟩, ⟨rfl, rfl, trivial⟩,
   ⟨by decide, by decide, by decide, trivial⟩⟩

/-! Claim theorems. -/

/-- Claim C1: each of the five polymorphic categories is closed with exactly
the variants listed in the spec table: Selection has Field, FragmentSpread and
InlineFragment; Value has the nine value types; Type has NamedType, ListType
and NonNullType; TypeDefinition has its eight members; TypeExtension has its
six members; and no type outside the listed set is a member of a category. -/
theorem closed_categories_exhaustive :
    (∀ s : Selection, (∃ x, s = Selection.field x) ∨
      (∃ x, s = Selection.fragmentSpread x) ∨
      (∃ x, s = Selection.inlineFragment x)) ∧
    (∀ v : Value, (∃ x, v = Value.variableValue x) ∨
      (∃ x, v = Value.intValue x) ∨ (∃ x, v = Value.floatValue x) ∨
      (∃ x, v = Value.stringValue x) ∨ (∃ x, v = Value.booleanValue x) ∨
      (∃ x, v = Value.nullValue x) ∨ (∃ x, v = Value.enumValue x) ∨
      (∃ x, v = Value.listValue x) ∨ (∃ x, v = Value.objectValue x)) ∧
    (∀ t : TypeRef, (∃ x, t = TypeRef.namedType x) ∨
      (∃ x, t = TypeRef.listType x) ∨ (∃ x, t = TypeRef.nonNullType x)) ∧
    (∀ d : TypeDefinition, (∃ x, d = TypeDefinition.schemaDefinition x) ∨
      (∃ x, d = TypeDefinition.directiveDefinition x) ∨
      (∃ x, d = TypeDefinition.scalarTypeDefinition x) ∨
      (∃ x, d = TypeDefinition.objectTypeDefinition x) ∨
      (∃ x, d = TypeDefinition.interfaceTypeDefinition x) ∨
      (∃ x, d = TypeDefinition.unionTypeDefinition x) ∨
      (∃ x, d = TypeDefinition.enumTypeDefinition x) ∨
      (∃ x, d = TypeDefinition.inputObjectTypeDefinition x)) ∧
    (∀ e : TypeExtension, (∃ x, e = TypeExtension.scalarTypeExtension x) ∨
      (∃ x, e = TypeExtension.objectTypeExtension x) ∨
      (∃ x, e = TypeExtension.interfaceTypeExtension x) ∨
      (∃ x, e = TypeExtension.unionTypeExtension x) ∨
      (∃ x, e = TypeExtension.enumTypeExtension x) ∨
      (∃ x, e = TypeExtension.inputObjectTypeExtension x)) := by
  refine ⟨fun s => ?_, fun v => ?_, fun t => ?_, fun d => ?_, fun e => ?_⟩
  · cases s <;> simp
  · cases v <;> simp
  · cases t <;> simp
  · cases d <;> simp
  · cases e <;> simp

/-- Claim C2: in every well-formed token chain the SOF token is first, the EOF
token is last, the tokens appear in byte order (position order implies offset
order, so every token occurs at exactly one byte position between the
sentinels), and for every token t at position i whose next link yields u, the
prev link of u yields t and t.start ≤ t.end ≤ u.start. -/
theorem tokenChain_invariants (body : String) (ts : List Token)
    (h : chainWF body ts) :
    (∀ t, ts.head? = some t → t.Kind = TokenType.sof) ∧
    (∀ t, ts.getLast? = some t → t.Kind = TokenType.eof) ∧
    (∀ (i : Nat) (t u : Token), ts.get? i = some t → nextTok ts i = some u →
      prevTok ts (i + 1) = some t ∧ t.Start ≤ t.End ∧ t.End ≤ u.Start) ∧
    (∀ (i j : Nat) (t u : Token), i < j → ts.get? i = some t →
      ts.get? j = some u → t.End ≤ u.Start) := by
  obtain ⟨h1, h2, h3, h4⟩ := h
  refine ⟨fun t ht => (headSOF_head h1 t ht).1,
    fun t ht => (lastEOF_getLast ts h2 t ht).1,
    fun i t u ht hu => ⟨ht, spansOrdered_get ts h4 i t ht,
      le_of_eq (adjJoined_get ts h3 i t u ht hu)⟩,
    fun i j t u hij ht hu => chain_lt_le h3 h4 i j t u hij ht hu⟩

/-- Witness for claim C2 on the concrete three-token chain of the body "ab". -/
theorem tokenChain_invariants_witness :
    chainWF "ab" exChain ∧
    (prevTok exChain 1 = some exTokSOF ∧ exTokSOF.Start ≤ exTokSOF.End ∧
      exTokSOF.End ≤ exTokName.Start) :=
  ⟨exChainWF,
   (tokenChain_invariants "ab" exChain exChainWF).2.2.1 0 exTokSOF exTokName
     rfl rfl⟩

/-- Claim C3, code evaluation at the failing input: in the source both
InlineFragment.SelectionSet and FragmentDefinition.SelectionSet are slices of
SelectionSet rather than one SelectionSet, so an InlineFragment can carry two
selection sets and a FragmentDefinition zero. -/
theorem fragment_selectionSet_list_shape :
    (InlineFragment.mk exLoc exNamedType []
      [exSelSet, exSelSet]).SelectionSet.length = 2 ∧
    (FragmentDefinition.mk exLoc exName [] exNamedType []
      []).SelectionSet.length = 0 :=
  ⟨rfl, rfl⟩

/-- Claim C4, code evaluation: DirectiveDefinition.Arguments,
DirectiveDefinition.Locations, ObjectTypeExtension.Interfaces,
ObjectTypeExtension.Fields, UnionTypeExtension.Types, EnumTypeExtension.Values
and InputObjectTypeExtension.Fields each hold exactly one value in the source,
so any two values read from the same field coincide; none of them is an
ordered sequence. -/
theorem singular_directive_and_extension_fields :
    (∀ (d : DirectiveDefinition) (a b : InputValueDefinition),
      d.Arguments = a → d.Arguments = b → a = b) ∧
    (∀ (d : DirectiveDefinition) (a b : Name),
      d.Locations = a → d.Locations = b → a = b) ∧
    (∀ (e : ObjectTypeExtension) (a b : NamedType),
      e.Interfaces = a → e.Interfaces = b → a = b) ∧
    (∀ (e : ObjectTypeExtension) (a b : FieldDefinition),
      e.Fields = a → e.Fields = b → a = b) ∧
    (∀ (e : UnionTypeExtension) (a b : NamedType),
      e.Types = a → e.Types = b → a = b) ∧
    (∀ (e : EnumTypeExtension) (a b : EnumValueDefinition),
      e.Values = a → e.Values = b → a = b) ∧
    (∀ (e : InputObjectTypeExtension) (a b : InputValueDefinition),
      e.Fields = a → e.Fields = b → a = b) := by
  refine ⟨?_, ?_, ?_, ?_, ?_, ?_, ?_⟩ <;>
    (intro x a b ha hb; rw [← ha, ← hb])

/-- Witness for claim C4 at a concrete directive definition. -/
theorem singular_directive_and_extension_fields_witness :
    exInputValueDef = exInputValueDef :=
  singular_directive_and_extension_fields.1 exDirectiveDef exInputValueDef
    exInputValueDef rfl rfl

/-- Claim C5: every AST node type owns exactly one Location field, so every
constructed node carries exactly one Location value. -/
theorem node_owns_one_location : ∀ n : Node, (Node.ownLocs n).length = 1 := by
  intro n
  cases n <;> rfl

/-- Claim C7 counterexample: SchemaDefinition is a node type whose name ends
in Definition yet it declares no Description field, so the claim that every
such type owns a Description fails at this concrete node. -/
theorem definition_description_counterexample :
    (DefinitionNode.ownDescriptions
      (DefinitionNode.schemaDefinition exSchemaDef)).length = 0 :=
  rfl

/-- Claim C7 as amended: exactly the ten type-system definition structs
(ScalarTypeDefinition, ObjectTypeDefinition, FieldDefinition,
InputValueDefinition, InterfaceTypeDefinition, UnionTypeDefinition,
EnumTypeDefinition, EnumValueDefinition, InputObjectTypeDefinition and
DirectiveDefinition) carry a Description field of type StringValue, while
OperationDefinition, VariableDefinition, FragmentDefinition, SchemaDefinition
and OperationTypeDefinition consist of exactly their listed fields, none of
which is a Description. -/
theorem definition_description_fields :
    (∀ d : ScalarTypeDefinition,
      d = ⟨d.Loc, d.Description, d.Name, d.Directives⟩) ∧
    (∀ d : ObjectTypeDefinition,
      d = ⟨d.Loc, d.Description, d.Name, d.Interfaces, d.Directives,
           d.Fields⟩) ∧
    (∀ d : FieldDefinition,
      d = ⟨d.Loc, d.Description, d.Name, d.Arguments, d.Ty, d.Directives⟩) ∧
    (∀ d : InputValueDefinition,
      d = ⟨d.Loc, d.Description, d.Name, d.Ty, d.DefaultValue,
           d.Directives⟩) ∧
    (∀ d : InterfaceTypeDefinition,
      d = ⟨d.Loc, d.Description, d.Name, d.Directives, d.Fields⟩) ∧
    (∀ d : UnionTypeDefinition,
      d = ⟨d.Loc, d.Description, d.Name, d.Directives, d.Types⟩) ∧
    (∀ d : EnumTypeDefinition,
      d = ⟨d.Loc, d.Description, d.Name, d.Directives, d.Values⟩) ∧
    (∀ d : EnumValueDefinition,
      d = ⟨d.Loc, d.Description, d.Name, d.Directives⟩) ∧
    (∀ d : InputObjectTypeDefinition,
      d = ⟨d.Loc, d.Description, d.Name, d.Directives, d.Fields⟩) ∧
    (∀ d : DirectiveDefinition,
      d = ⟨d.Loc, d.Description, d.Name, d.Arguments, d.Locations⟩) ∧
    (∀ d : OperationDefinition,
      d = ⟨d.Loc, d.Operation, d.Name, d.VariableDefinitions, d.Directives,
           d.SelectionSet⟩) ∧
    (∀ d : VariableDefinition,
      d = ⟨d.Loc, d.Variable, d.Ty, d.DefaultValue⟩) ∧
    (∀ d : FragmentDefinition,
      d = ⟨d.Loc, d.Name, d.VariableDefinition, d.TypeCondition, d.Directives,
           d.SelectionSet⟩) ∧
    (∀ d : SchemaDefinition, d = ⟨d.Loc, d.Directives, d.OperationTypes⟩) ∧
    (∀ d : OperationTypeDefinition, d = ⟨d.Loc, d.Operation, d.Ty⟩) :=
  ⟨fun _ => rfl, fun _ => rfl, fun _ => rfl, fun _ => rfl, fun _ => rfl,
   fun _ => rfl, fun _ => rfl, fun _ => rfl, fun _ => rfl, fun _ => rfl,
   fun _ => rfl, fun _ => rfl, fun _ => rfl, fun _ => rfl, fun _ => rfl⟩

/-- Claim C8: no extension node type carries a Description field: each of the
seven extension structs consists of exactly its listed fields, and none of
them is a Description. -/
theorem extensions_carry_no_description :
    (∀ e : SchemaExtension, e = ⟨e.Loc, e.Directives, e.OperationTypes⟩) ∧
    (∀ e : ScalarTypeExtension, e = ⟨e.Loc, e.Name, e.Directives⟩) ∧
    (∀ e : ObjectTypeExtension,
      e = ⟨e.Loc, e.Name, e.Interfaces, e.Directives, e.Fields⟩) ∧
    (∀ e : InterfaceTypeExtension,
      e = ⟨e.Loc, e.Name, e.Directives, e.Fields⟩) ∧
    (∀ e : UnionTypeExtension, e = ⟨e.Loc, e.Name, e.Directives, e.Types⟩) ∧
    (∀ e : EnumTypeExtension, e = ⟨e.Loc, e.Name, e.Directives, e.Values⟩) ∧
    (∀ e : InputObjectTypeExtension,
      e = ⟨e.Loc, e.Name, e.Directives, e.Fields⟩) :=
  ⟨fun _ => rfl, fun _ => rfl, fun _ => rfl, fun _ => rfl, fun _ => rfl,
   fun _ => rfl, fun _ => rfl⟩

/-- Claim C6: every Location constructed by locationFor from two tokens of a
well-formed chain, with the start token not positioned after the end token in
chain order, satisfies 0 ≤ start ≤ end ≤ len(source.body). -/
theorem locationFor_bounds (src : Source) (ts : List Token) (i j : Nat)
    (ti tj : Token) (h : chainWF src.Body ts) (hij : i ≤ j)
    (hi : ts.get? i = some ti) (hj : ts.get? j = some tj) :
    0 ≤ (locationFor ti tj src).Start ∧
    (locationFor ti tj src).Start ≤ (locationFor ti tj src).End ∧
    (locationFor ti tj src).End ≤ (src.Body.length : Int) := by
  obtain ⟨h1, h2, h3, h4⟩ := h
  refine ⟨?_, ?_, ?_⟩
  · exact chain_start_nonneg h1 h3 h4 hi
  · exact chain_start_le_end h3 h4 hij hi hj
  · exact chain_end_le h2 h3 h4 hj

/-- Witness for claim C6: the Location spanning the name token of the sample
chain of the body "ab". -/
theorem locationFor_bounds_witness :
    0 ≤ (locationFor exTokName exTokName exSource).Start ∧
    (locationFor exTokName exTokName exSource).Start ≤
      (locationFor exTokName exTokName exSource).End ∧
    (locationFor exTokName exTokName exSource).End ≤
      (exSource.Body.length : Int) :=
  locationFor_bounds exSource exChain 1 1 exTokName exTokName exChainWF
    (le_refl 1) rfl rfl

/-- Claim C9: for every Field, the result key is the field name value when the
alias value is the empty string, and the alias value otherwise. -/
theorem field_resultKey_resolution (f : Field) :
    (f.Alias.Value = "" → f.resultKey = f.Name.Value) ∧
    (f.Alias.Value ≠ "" → f.resultKey = f.Alias.Value) := by
  constructor
  · intro h
    simp [Field.resultKey, h]
  · intro h
    simp [Field.resultKey, h]

/-- Witness for claim C9 on a field named n without alias and a field aliased
foo. -/
theorem field_resultKey_resolution_witness :
    Field.resultKey exFieldNoAlias = "n" ∧
    Field.resultKey exFieldAlias = "foo" :=
  ⟨(field_resultKey_resolution exFieldNoAlias).1 rfl,
   (field_resultKey_resolution exFieldAlias).2 (by decide)⟩

/-- Claim C10: in VariableDefinition and InputValueDefinition an absent
default value is the none state of the optional Value field, which differs
from every present Value; and an explicit null literal is the present
NullValue variant, which is never the absent state. -/
theorem absent_default_distinct_from_null (vd : VariableDefinition)
    (iv : InputValueDefinition) (nv : NullValue) :
    (vd.DefaultValue = none → ∀ v : Value, vd.DefaultValue ≠ some v) ∧
    (iv.DefaultValue = none → ∀ v : Value, iv.DefaultValue ≠ some v) ∧
    (some (Value.nullValue nv) : Option Value) ≠ none := by
  refine ⟨?_, ?_, ?_⟩
  · intro h v hv
    rw [h] at hv
    exact Option.noConfusion hv
  · intro h v hv
    rw [h] at hv
    exact Option.noConfusion hv
  · intro h
    exact Option.noConfusion h

/-- Witness for claim C10 on a concrete variable definition without a default
value. -/
theorem absent_default_distinct_from_null_witness :
    exVariableDef.DefaultValue ≠ some (Value.nullValue exNullValue) :=
  (absent_default_distinct_from_null exVariableDef exInputValueDef
    exNullValue).1 rfl (Value.nullValue exNullValue)

end GqlAst
